import Mathlib

/-!
Verification development for the ergo IRC server core (src/irc/server.go).

The Go source is shallowly embedded: each handler and data structure used
by the properties below is translated into an executable Lean definition.
Go maps keyed by strings become association lists, Go `map[K]bool` sets
become duplicate-free lists, pointer identity becomes a numeric `id`
field, and side effects (numeric replies, broadcasts, quits) become an
explicit `Effect` list returned by each handler.  Parts of the repository
that are not in src (client.go, channel.go, the command parser) are
modelled from the specification and carry a doc comment saying so.
-/

set_option linter.unusedVariables false

namespace Ergo

/-- User mode flags of a client (Go: `UserMode` runes used as map keys). -/
inductive UserMode where
  | Invisible
  | Operator
  | LocalOperator
  | ServerNotice
  | WallOps
  | Away
deriving DecidableEq

/-- Channel mode flags (Go: `ChannelMode`). -/
inductive ChannelMode where
  | Private
  | Secret
  | InviteOnly
  | NoOutside
  | Moderated
  | TopicLock
  | Key
  | UserLimit
deriving DecidableEq

/-- Connection lifecycle phase (Go: `Phase`). -/
inductive Phase where
  | Authorization
  | Registration
  | Normal
  | Terminated
deriving DecidableEq

/-- A single user mode change operation (Go: `ModeOp`, `+` or `-`). -/
inductive ModeOp where
  | Add
  | Remove
deriving DecidableEq

/-- One element of a MODE change list (Go: `ModeChange`). -/
structure ModeChange where
  op : ModeOp
  mode : UserMode
deriving DecidableEq

/-- Modelled from the spec: the Client record of client.go (not in src).
Per-connection state: nickname, username, realname, hostname, user mode
flag set, channel membership set, phase, last-active and last-touched
timestamps.  The `id` field stands for Go pointer identity. -/
structure Client where
  id : Nat
  nick : String
  username : String
  realname : String
  hostname : String
  flags : List UserMode
  channels : List String
  phase : Phase
  lastActive : Nat
  lastTouched : Nat
deriving DecidableEq

/-- Modelled from the spec: the Channel record of channel.go (not in src):
name, channel mode flag set, key, topic, user limit. -/
structure Channel where
  name : String
  flags : List ChannelMode
  key : String
  topic : String
  userLimit : Nat
deriving DecidableEq

/-- Go `strings.ToLower`, at the character level (character-wise
lowercasing; the embedding of every lowercase-keyed map uses it). -/
def strToLower (s : String) : String :=
  ⟨s.data.map Char.toLower⟩

/-- Modelled from the spec: `Client.Nick()` returns the client's nickname. -/
def clientNick (c : Client) : String :=
  c.nick

/-- Modelled from the spec: `Client.HasNick()` — the client has a nickname. -/
def hasNick (c : Client) : Bool :=
  c.nick ≠ ""

/-- Modelled from the spec: the composite identity string nick!user@host
(glossary "Userhost"), as stored by `ClientDB.Add`. -/
def userHostOf (c : Client) : String :=
  c.nick ++ "!" ++ c.username ++ "@" ++ c.hostname

/-- Modelled from the spec: `Client.Touch()` bumps the last-touched
timestamp. -/
def clientTouch (c : Client) (now : Nat) : Client :=
  { c with lastTouched := now }

/-- Modelled from the spec: `Client.Active()` bumps the last-active
timestamp. -/
def clientActive (c : Client) (now : Nat) : Client :=
  { c with lastActive := now }

/-- Errors returned by the nickname index (Go: `ErrNickMissing`,
`ErrNicknameInUse`, `ErrNicknameMismatch` in src/irc/server.go). -/
inductive LookupError where
  | nickMissing
  | nicknameInUse
  | nicknameMismatch
deriving DecidableEq

/-- One row of the in-memory client db (Go: TABLE client, src/irc/server.go). -/
structure ClientRow where
  nickname : String
  userhost : String
deriving DecidableEq

/-- The nickname index (Go: `ClientLookupSet` in src/irc/server.go): a
lowercase-nick keyed map plus the userhost row table. -/
structure ClientLookupSet where
  byNick : List (String × Client)
  db : List ClientRow
deriving DecidableEq

/-- `ClientLookupSet.Get` (src/irc/server.go): case-insensitive lookup
`clients.byNick[strings.ToLower(nick)]`. -/
def lookupGet (s : ClientLookupSet) (nick : String) : Option Client :=
  (s.byNick.find? (fun p => p.1 = strToLower nick)).map (fun p => p.2)

/-- `ClientDB.Add` (src/irc/server.go): INSERT the (nickname, userhost) row. -/
def clientDBAdd (db : List ClientRow) (c : Client) : List ClientRow :=
  db ++ [⟨clientNick c, userHostOf c⟩]

/-- `ClientDB.Remove` (src/irc/server.go): DELETE rows whose nickname is
the client's nick. -/
def clientDBRemove (db : List ClientRow) (c : Client) : List ClientRow :=
  db.filter (fun r => r.nickname ≠ clientNick c)

/-- `ClientLookupSet.Add` (src/irc/server.go): fail with NickMissing when
the client has no nick, with NicknameInUse when the lowercase nick is
already indexed; otherwise insert into both the byNick map and the db. -/
def lookupAdd (s : ClientLookupSet) (c : Client) : ClientLookupSet × Option LookupError :=
  if ¬ hasNick c then (s, some .nickMissing)
  else if (lookupGet s c.nick).isSome then (s, some .nicknameInUse)
  else ({ byNick := (strToLower c.nick, c) :: s.byNick, db := clientDBAdd s.db c }, none)

/-- `ClientLookupSet.Remove` (src/irc/server.go): fail with NickMissing
when the client has no nick, with NicknameMismatch when the indexed entry
is a different client; otherwise delete from both structures. -/
def lookupRemove (s : ClientLookupSet) (c : Client) : ClientLookupSet × Option LookupError :=
  if ¬ hasNick c then (s, some .nickMissing)
  else if lookupGet s c.nick ≠ some c then (s, some .nicknameMismatch)
  else ({ byNick := s.byNick.filter (fun p => p.1 ≠ strToLower c.nick), db := clientDBRemove s.db c }, none)

/-- Observable actions of a handler: numeric replies sent to the invoking
client, messages relayed elsewhere, and state-changing calls into parts of
the repository outside src (channel.go / client.go operations appear here
as abstract events, as the spec describes them). -/
inductive Effect where
  | errNoSuchChannel (name : String)
  | errNoSuchServer (name : String)
  | errNoSuchNick (nick : String)
  | errUsersDontMatch
  | errPasswdMismatch
  | errNoNicknameGiven
  | errErroneusNickname (nick : String)
  | errNickNameInUse (nick : String)
  | errUnknownCommand (code : String)
  | rplMode (changes : List ModeChange)
  | rplList (channel : String)
  | rplListEnd
  | rplYoureOper
  | rplUModeIs
  | names (channel : String)
  | changeNickname (nick : String)
  | part (channel : String) (message : String)
  | joinChannel (channel : String) (key : String)
  | newChannel (channel : String)
  | quit (message : String)
deriving DecidableEq

/-- Modelled from the spec: `Client.Quit` — the client transitions to the
Terminated phase and the unified quit path runs (broadcast, unlink). -/
def clientQuit (c : Client) (message : String) : Client × List Effect :=
  ({ c with phase := .Terminated }, [.quit message])

/-- Modelled from the spec: the nickname grammar — first char a letter or
one of `[]\`_^{|}`; subsequent chars add digits and `-`; length at most 32. -/
def isNickFirstChar (c : Char) : Bool :=
  c.isAlpha || ("[]\\`_^\x7b|\x7d".toList).contains c

/-- Modelled from the spec: characters allowed after the first one of a
nickname. -/
def isNickRestChar (c : Char) : Bool :=
  isNickFirstChar c || c.isDigit || c = '-'

/-- Modelled from the spec: `IsNickname` validation (not in src). -/
def isNickname (s : String) : Bool :=
  match s.toList with
  | [] => false
  | c :: cs => isNickFirstChar c && cs.all isNickRestChar && s.length ≤ 32

/-- Modelled from the spec: `IsChannel` — name starts with `#` or `&`,
length at most 50, no space, comma or control characters. -/
def isChannelName (s : String) : Bool :=
  match s.toList with
  | [] => false
  | c :: _ =>
      (c = '#' || c = '&') && s.length ≤ 50 &&
        s.toList.all (fun d => d ≠ ' ' && d ≠ ',' && !(d.toNat < 32 || d.toNat = 127))

/-- Modelled from the spec: `ChannelNameMap.Get` — the ChannelTable is a
lowercase-name → Channel map, so lookup is case-insensitive. -/
def channelsGet (channels : List Channel) (name : String) : Option Channel :=
  channels.find? (fun ch => strToLower ch.name = strToLower name)

/-- `PassCommand.HandleAuthServer` (src/irc/server.go): on a password
error reply ERR_PASSWDMISMATCH and quit with "bad password"; otherwise
advance the phase to Registration. -/
def passHandleAuthServer (client : Client) (errPresent : Bool) : Client × List Effect :=
  if errPresent then
    let q := clientQuit client "bad password"
    (q.1, .errPasswdMismatch :: q.2)
  else ({ client with phase := .Registration }, [])

/-- Modelled from the spec: the password comparison that fills
`PassCommand.err` (done outside src): the PASS argument matches iff it
equals the configured server password. -/
def passMatches (serverPassword given : String) : Bool :=
  serverPassword = given

/-- A PASS command processed in the Authorization phase: the err field is
the (spec-modelled) comparison, the handler is the src translation. -/
def passCommandRun (serverPassword : String) (client : Client) (given : String) :
    Client × List Effect :=
  passHandleAuthServer client (! passMatches serverPassword given)

/-- `NickCommand.HandleServer` (src/irc/server.go): empty nick → 431;
invalid nick → 432; exactly the current nick → silent return; another
client holds it → 433; otherwise `ChangeNickname`. -/
def nickHandleServer (clients : ClientLookupSet) (client : Client) (nickname : String) :
    List Effect :=
  if nickname = "" then [.errNoNicknameGiven]
  else if ¬ isNickname nickname then [.errErroneusNickname nickname]
  else if nickname = client.nick then []
  else
    match lookupGet clients nickname with
    | some target => if target ≠ client then [.errNickNameInUse nickname] else [.changeNickname nickname]
    | none => [.changeNickname nickname]

/-- `JoinCommand.HandleServer` (src/irc/server.go): the zero form parts
every channel of the client with the client's nick as message; otherwise
each named channel is validated, created when absent, and joined. -/
def joinHandleServer (serverChannels : List Channel) (client : Client)
    (zero : Bool) (chans : List (String × String)) : List Effect :=
  if zero then client.channels.map (fun ch => .part ch (clientNick client))
  else
    chans.flatMap (fun nk =>
      if ¬ isChannelName nk.1 then [.errNoSuchChannel nk.1]
      else
        match channelsGet serverChannels nk.1 with
        | some _ => [.joinChannel nk.1 nk.2]
        | none => [.newChannel nk.1, .joinChannel nk.1 nk.2])

/-- One iteration of the MODE change loop (src/irc/server.go lines
499-527): Invisible/ServerNotice/WallOps changes are applied when they
alter the flag set and recorded; Operator/LocalOperator changes are
applied and recorded only for Remove; everything else is ignored. -/
def modeLoopStep (acc : List UserMode × List ModeChange) (change : ModeChange) :
    List UserMode × List ModeChange :=
  match change.mode with
  | .Invisible | .ServerNotice | .WallOps =>
    match change.op with
    | .Add =>
        if change.mode ∈ acc.1 then acc
        else (change.mode :: acc.1, acc.2 ++ [change])
    | .Remove =>
        if change.mode ∈ acc.1 then (acc.1.erase change.mode, acc.2 ++ [change])
        else acc
  | .Operator | .LocalOperator =>
    match change.op with
    | .Remove =>
        if change.mode ∈ acc.1 then (acc.1.erase change.mode, acc.2 ++ [change])
        else acc
    | .Add => acc
  | .Away => acc

/-- The MODE change loop over a whole change list, starting from the
target's flags with no accumulated changes. -/
def modeLoop (flags : List UserMode) (cs : List ModeChange) :
    List UserMode × List ModeChange :=
  cs.foldl modeLoopStep (flags, [])

/-- `ModeCommand.HandleServer` (src/irc/server.go): resolve the target
nick (401 when absent, 502 when another user and not an operator), run
the change loop on the target's flags, and reply RplMode exactly when
some change was applied. Returns the updated target and the effects. -/
def modeHandleServer (clients : ClientLookupSet) (client : Client)
    (nickname : String) (changes : List ModeChange) : Client × List Effect :=
  match lookupGet clients nickname with
  | none => (client, [.errNoSuchNick nickname])
  | some target =>
    if target ≠ client ∧ .Operator ∉ client.flags then (client, [.errUsersDontMatch])
    else
      let res := modeLoop target.flags changes
      ({ target with flags := res.1 },
        if res.2.length > 0 then [.rplMode res.2] else [])

/-- `OperCommand.HandleServer` (src/irc/server.go): without a configured
hash or on a password error reply 464; otherwise set the Operator flag
and reply RPL_YOUREOPER and the user modes. -/
def operHandleServer (client : Client) (hashPresent errPresent : Bool) :
    Client × List Effect :=
  if ¬ hashPresent ∨ errPresent then (client, [.errPasswdMismatch])
  else
    ({ client with flags := if .Operator ∈ client.flags then client.flags else .Operator :: client.flags },
      [.rplYoureOper, .rplUModeIs])

/-- `ListCommand.HandleServer` (src/irc/server.go): a non-empty target is
ERR_NOSUCHSERVER; with no channel arguments every channel is listed
except Private ones hidden from non-operators; with channel arguments an
unknown name or a Private channel hidden from a non-operator is
ERR_NOSUCHCHANNEL; the listing ends with RPL_LISTEND. -/
def listHandleServer (serverChannels : List Channel) (client : Client)
    (target : String) (msgChannels : List String) : List Effect :=
  if target ≠ "" then [.errNoSuchServer target]
  else
    (if msgChannels.isEmpty then
      serverChannels.filterMap (fun ch =>
        if .Operator ∉ client.flags ∧ ChannelMode.Private ∈ ch.flags then none
        else some (.rplList ch.name))
    else
      msgChannels.map (fun chname =>
        match channelsGet serverChannels chname with
        | none => .errNoSuchChannel chname
        | some ch =>
            if .Operator ∉ client.flags ∧ ChannelMode.Private ∈ ch.flags then
              .errNoSuchChannel chname
            else .rplList ch.name)) ++ [.rplListEnd]

/-- `NamesCommand.HandleServer` (src/irc/server.go), translated exactly as
written: when the server's channel table is empty it iterates the (empty)
server channel table and returns; otherwise it iterates the channel names
carried by the message, with ERR_NOSUCHCHANNEL for unknown names. -/
def namesHandleServer (serverChannels : List Channel) (client : Client)
    (msgChannels : List String) : List Effect :=
  if serverChannels.length = 0 then
    serverChannels.map (fun ch => .names ch.name)
  else
    msgChannels.flatMap (fun chname =>
      match channelsGet serverChannels chname with
      | none => [.errNoSuchChannel chname]
      | some ch => [.names ch.name])

/-- Command tags of the Normal-phase dispatch (src/irc/server.go): one per
command variant of the repository. -/
inductive CmdTag where
  | ping | pong | quitCmd | pass | nickCmd | user | joinCmd | partCmd
  | topic | privmsg | notice | modeCmd | channelMode | who | whois | whowas
  | oper | away | ison | motd | kick | listCmd | namesCmd | invite
  | timeCmd | version | debugCmd | kill | proxy | cap
deriving DecidableEq

/-- Which command variants implement the `ServerCommand` interface, i.e.
have a Normal-phase handler in src/irc/server.go (all except PROXY and
CAP, whose handlers exist only for the earlier phases). -/
def isServerCommand : CmdTag → Bool
  | .proxy => false
  | .cap => false
  | _ => true

/-- The Normal-phase prelude of `Server.processCommand` (src/irc/server.go
lines 117-135): an unrecognized command only gets ERR_UNKNOWNCOMMAND;
PING/PONG call Touch only; QUIT is exempt; every other server command
calls Active then Touch before its handler runs. -/
def processNormalPrelude (now : Nat) (client : Client) (tag : CmdTag) : Client :=
  if ¬ isServerCommand tag then client
  else
    match tag with
    | .ping | .pong => clientTouch client now
    | .quitCmd => client
    | _ => clientTouch (clientActive client now) now

/-- Go `strings.Replace(s, string(c), r, -1)` for a one-character pattern,
at the character-list level: every occurrence of `c` becomes `r`. -/
def rep (c : Char) (r : List Char) : List Char → List Char
  | [] => []
  | x :: xs => (if x = c then r else [x]) ++ rep c r xs

/-- `QuoteLike` (src/irc/server.go): escape `\`, `%` and `_` for SQL LIKE,
then turn the glob wildcards `*` and `?` into `%` and `_`.  The five
replacements are applied in the source's order. -/
def quoteLike (s : List Char) : List Char :=
  rep '?' ['_'] (rep '*' ['%'] (rep '_' ['\\', '_'] (rep '%' ['\\', '%'] (rep '\\' ['\\', '\\'] s))))

/-- Case-insensitive character comparison used by the matchers. -/
def charEqCI (a b : Char) : Bool :=
  a.toLower = b.toLower

/-- Modelled from the spec: the SQL `LIKE ? ESCAPE '\'` predicate that the
client db evaluates for `FindAll` (the matching engine is SQLite, outside
src): `%` matches any run, `_` any one character, a backslash escapes the
next pattern character, plain characters match case-insensitively, and
the match is anchored at both ends. -/
def likeMatch : List Char → List Char → Bool
  | [], s => s.isEmpty
  | c :: p, s =>
    if c = '%' then s.tails.any (fun t => likeMatch p t)
    else if c = '\\' then
      match p, s with
      | e :: p2, x :: s2 => charEqCI e x && likeMatch p2 s2
      | _, _ => false
    else
      match s with
      | [] => false
      | x :: s2 => (if c = '_' then true else charEqCI c x) && likeMatch p s2

/-- The spec's wildcard matcher, stated from its words: `*` matches any
run of characters, `?` matches any single character, every other
character (`%`, `_` and `\` included) matches only itself, anchored
end-to-end and case-insensitively. -/
def globMatch : List Char → List Char → Bool
  | [], s => s.isEmpty
  | c :: p, s =>
    if c = '*' then s.tails.any (fun t => globMatch p t)
    else
      match s with
      | [] => false
      | x :: s2 => (if c = '?' then true else charEqCI c x) && globMatch p s2

/-- First step of `ExpandUserHost` (src/irc/server.go): append `!*` when
no `!` occurs. -/
def expandBang (userhost : List Char) : List Char :=
  if '!' ∈ userhost then userhost else userhost ++ ['!', '*']

/-- Second step of `ExpandUserHost`: append `@*` when no `@` occurs. -/
def expandAt (userhost : List Char) : List Char :=
  if '@' ∈ userhost then userhost else userhost ++ ['@', '*']

/-- `ExpandUserHost` (src/irc/server.go), composed of its two steps. -/
def expandUserHost (userhost : List Char) : List Char :=
  expandAt (expandBang userhost)

/-- `ClientLookupSet.FindAll` (src/irc/server.go): expand the mask, query
the client db rows whose userhost is LIKE the quoted pattern, and collect
the indexed client of each matching row. -/
def findAll (clients : ClientLookupSet) (userhost : List Char) : List Client :=
  clients.db.filterMap (fun row =>
    if likeMatch (quoteLike (expandUserHost userhost)) row.userhost.toList then
      lookupGet clients row.nickname
    else none)

/-- What `QuoteLike` emits for a single mask character. -/
def qchar (x : Char) : List Char :=
  if x = '\\' then ['\\', '\\']
  else if x = '%' then ['\\', '%']
  else if x = '_' then ['\\', '_']
  else if x = '*' then ['%']
  else if x = '?' then ['_']
  else [x]

/-- A change appended by the MODE loop is never an Add of an operator
flag: it is a Remove, or its mode is one of the three freely settable
flags. -/
def appendedSafe (ch : ModeChange) : Prop :=
  ch.op = .Remove ∨ ch.mode = .Invisible ∨ ch.mode = .ServerNotice ∨ ch.mode = .WallOps

/-!  Concrete values used by the closed witness and counterexample
theorems below. -/

/-- A registered client with nick `Bob`. -/
def demoBob : Client := ⟨0, "Bob", "bob", "Bob", "h1", [], [], .Normal, 0, 0⟩

/-- A different client that also wants the nick `Bob`. -/
def demoBob2 : Client := ⟨1, "Bob", "bob2", "Bob Two", "h2", [], [], .Normal, 0, 0⟩

/-- A client that has no nickname yet. -/
def demoNoNick : Client := ⟨2, "", "u", "r", "h3", [], [], .Authorization, 0, 0⟩

/-- An index state holding `demoBob` under the lowercase key `bob`. -/
def demoSet : ClientLookupSet := ⟨[("bob", demoBob)], [⟨"Bob", "Bob!bob@h1"⟩]⟩

/-- A client still in the Authorization phase. -/
def demoAuthClient : Client := ⟨3, "", "", "", "h", [], [], .Authorization, 0, 0⟩

/-- A channel named #test with no flags. -/
def demoChanTest : Channel := ⟨"#test", [], "", "", 0⟩

/-- A registered client that is a member of #test. -/
def demoEve : Client := ⟨5, "eve", "e", "E", "h", [], ["#test"], .Normal, 0, 0⟩

/-- The `+i` mode change. -/
def plusI : ModeChange := ⟨.Add, .Invisible⟩

/-- The `-i` mode change. -/
def minusI : ModeChange := ⟨.Remove, .Invisible⟩

/-- A registered client with no user modes set. -/
def demoMia : Client := ⟨7, "mia", "m", "M", "h", [], [], .Normal, 0, 0⟩

/-- An index state holding `demoMia`. -/
def demoMiaSet : ClientLookupSet := ⟨[("mia", demoMia)], [⟨"mia", "mia!m@h"⟩]⟩

/-- A registered client whose nick is capitalized. -/
def demoAlice : Client := ⟨4, "Alice", "a", "A", "h", [], [], .Normal, 0, 0⟩

/-- An index state holding `demoAlice` under the lowercase key `alice`. -/
def demoAliceSet : ClientLookupSet := ⟨[("alice", demoAlice)], [⟨"Alice", "Alice!a@h"⟩]⟩

/-- A private channel. -/
def demoChanPriv : Channel := ⟨"#priv", [.Private], "", "", 0⟩

/-- A public channel. -/
def demoChanPub : Channel := ⟨"#pub", [], "", "", 0⟩

/-- A registered client without the Operator flag. -/
def demoKai : Client := ⟨9, "kai", "k", "K", "hh", [], [], .Normal, 1, 2⟩

/-- A registered operator client. -/
def demoOper : Client := ⟨10, "opa", "o", "O", "hh", [.Operator], [], .Normal, 0, 0⟩

/-!  Correctness of `QuoteLike` with respect to the spec's glob matcher. -/

theorem rep_append (c : Char) (r a b : List Char) :
    rep c r (a ++ b) = rep c r a ++ rep c r b := by
  induction a with
  | nil => simp [rep]
  | cons x xs ih => simp [rep, ih]

theorem quoteLike_nil : quoteLike [] = [] := rfl

theorem quoteLike_cons (x : Char) (m : List Char) :
    quoteLike (x :: m) = qchar x ++ quoteLike m := by
  have hc : (x :: m) = [x] ++ m := rfl
  by_cases h1 : x = '\\'
  · subst h1; simp [quoteLike, qchar, rep, rep_append, hc]
  · by_cases h2 : x = '%'
    · subst h2; simp [quoteLike, qchar, rep, rep_append, hc]
    · by_cases h3 : x = '_'
      · subst h3; simp [quoteLike, qchar, rep, rep_append, hc]
      · by_cases h4 : x = '*'
        · subst h4; simp [quoteLike, qchar, rep, rep_append, hc]
        · by_cases h5 : x = '?'
          · subst h5; simp [quoteLike, qchar, rep, rep_append, hc]
          · simp [quoteLike, qchar, rep, rep_append, hc, h1, h2, h3, h4, h5]

theorem likeMatch_quoteLike (m : List Char) : ∀ s : List Char,
    likeMatch (quoteLike m) s = globMatch m s := by
  induction m with
  | nil => intro s; simp [quoteLike_nil, likeMatch, globMatch]
  | cons x m ih =>
    intro s
    rw [quoteLike_cons]
    by_cases h1 : x = '\\'
    · subst h1
      have hq : qchar '\\' ++ quoteLike m = '\\' :: '\\' :: quoteLike m := rfl
      rw [hq]
      cases s with
      | nil => rw [likeMatch.eq_def, globMatch.eq_def]; simp
      | cons y s2 => rw [likeMatch.eq_def, globMatch.eq_def]; simp [ih]
    · by_cases h2 : x = '%'
      · subst h2
        have hq : qchar '%' ++ quoteLike m = '\\' :: '%' :: quoteLike m := rfl
        rw [hq]
        cases s with
        | nil => rw [likeMatch.eq_def, globMatch.eq_def]; simp
        | cons y s2 => rw [likeMatch.eq_def, globMatch.eq_def]; simp [ih]
      · by_cases h3 : x = '_'
        · subst h3
          have hq : qchar '_' ++ quoteLike m = '\\' :: '_' :: quoteLike m := rfl
          rw [hq]
          cases s with
          | nil => rw [likeMatch.eq_def, globMatch.eq_def]; simp
          | cons y s2 => rw [likeMatch.eq_def, globMatch.eq_def]; simp [ih]
        · by_cases h4 : x = '*'
          · subst h4
            have hq : qchar '*' ++ quoteLike m = '%' :: quoteLike m := rfl
            rw [hq, likeMatch.eq_def, globMatch.eq_def]
            simp [ih]
          · by_cases h5 : x = '?'
            · subst h5
              have hq : qchar '?' ++ quoteLike m = '_' :: quoteLike m := rfl
              rw [hq]
              cases s with
              | nil => rw [likeMatch.eq_def, globMatch.eq_def]; simp
              | cons y s2 => rw [likeMatch.eq_def, globMatch.eq_def]; simp [ih]
            · have hq : qchar x = [x] := by simp [qchar, h1, h2, h3, h4, h5]
              rw [hq]
              cases s with
              | nil =>
                rw [likeMatch.eq_def, globMatch.eq_def]
                simp [h1, h2, h4]
              | cons y s2 =>
                rw [likeMatch.eq_def, globMatch.eq_def]
                simp [ih, h1, h2, h3, h4, h5]

/-- C5: `FindAll` first fills in the missing mask components (`!*` when
the mask has no `!`, `@*` when it has no `@`) and returns exactly the
indexed clients whose stored nick!user@host row matches the expanded
pattern under the spec's semantics — `*` any run, `?` any one character,
literal `%`, `_` and `\` only themselves, anchored end-to-end and
case-insensitive: the SQL LIKE test of the quoted pattern coincides with
that glob matcher on every string. -/
theorem findAll_matches_glob (clients : ClientLookupSet) (mask : List Char) (c : Client) :
    (∀ p s : List Char, likeMatch (quoteLike p) s = globMatch p s) ∧
    ('!' ∉ mask → '@' ∉ mask → expandUserHost mask = mask ++ ['!', '*', '@', '*']) ∧
    ('!' ∈ mask → '@' ∈ mask → expandUserHost mask = mask) ∧
    (c ∈ findAll clients mask ↔
      ∃ row ∈ clients.db, globMatch (expandUserHost mask) row.userhost.toList = true ∧
        lookupGet clients row.nickname = some c) := by
  refine ⟨likeMatch_quoteLike, ?_, ?_, ?_⟩
  · intro h1 h2
    simp [expandUserHost, expandBang, expandAt, h1, h2]
  · intro h1 h2
    simp [expandUserHost, expandBang, expandAt, h1, h2]
  · unfold findAll
    simp only [List.mem_filterMap]
    constructor
    · rintro ⟨row, hrow, hf⟩
      by_cases h : likeMatch (quoteLike (expandUserHost mask)) row.userhost.toList
      · refine ⟨row, hrow, ?_, ?_⟩
        · rw [← likeMatch_quoteLike]; exact h
        · rw [if_pos h] at hf; exact hf
      · rw [if_neg h] at hf; cases hf
    · rintro ⟨row, hrow, hg, hget⟩
      refine ⟨row, hrow, ?_⟩
      rw [if_pos]
      · exact hget
      · rw [likeMatch_quoteLike]; exact hg

/-- C5 witness: concrete instances of the hypotheses of
`findAll_matches_glob`: the mask `al*` has neither `!` nor `@` and is
expanded to `al*!*@*`; the mask `a!b@c` has both and is unchanged. -/
theorem findAll_matches_glob_witness :
    expandUserHost ("al*".toList) = ("al*!*@*".toList) ∧
    expandUserHost ("a!b@c".toList) = ("a!b@c".toList) :=
  ⟨Trans.trans ((findAll_matches_glob demoSet ("al*".toList) demoBob).2.1
      (by decide) (by decide)) (by decide),
   (findAll_matches_glob demoSet ("a!b@c".toList) demoBob).2.2.1
      (by decide) (by decide)⟩

/-- C4: `Add` fails with NickMissing when the client has no nick and with
NicknameInUse when the lowercase nick is already indexed, leaving both
maps unchanged; `Remove` fails with NickMissing when the client has no
nick and with NicknameMismatch when the indexed entry is a different
client, in which case that other client's entry is neither deleted nor
overwritten. -/
theorem lookupSet_error_cases (s : ClientLookupSet) (c c2 : Client) :
    (¬ hasNick c → lookupAdd s c = (s, some .nickMissing)) ∧
    (hasNick c → lookupGet s c.nick = some c2 → lookupAdd s c = (s, some .nicknameInUse)) ∧
    (¬ hasNick c → lookupRemove s c = (s, some .nickMissing)) ∧
    (hasNick c → lookupGet s c.nick = some c2 → c2 ≠ c →
      lookupRemove s c = (s, some .nicknameMismatch) ∧
      lookupGet (lookupRemove s c).1 c.nick = some c2) := by
  refine ⟨?_, ?_, ?_, ?_⟩
  · intro h
    simp [lookupAdd, h]
  · intro h hget
    simp [lookupAdd, h, hget]
  · intro h
    simp [lookupRemove, h]
  · intro h hget hne
    constructor
    · simp [lookupRemove, h, hget, hne]
    · simp [lookupRemove, h, hget, hne]

/-- C4 witness: the error cases of `lookupSet_error_cases` evaluated on
the concrete index `demoSet`. -/
theorem lookupSet_error_cases_witness :
    lookupAdd demoSet demoNoNick = (demoSet, some .nickMissing) ∧
    lookupAdd demoSet demoBob2 = (demoSet, some .nicknameInUse) ∧
    lookupRemove demoSet demoNoNick = (demoSet, some .nickMissing) ∧
    (lookupRemove demoSet demoBob2 = (demoSet, some .nicknameMismatch) ∧
      lookupGet (lookupRemove demoSet demoBob2).1 demoBob2.nick = some demoBob) :=
  ⟨(lookupSet_error_cases demoSet demoNoNick demoBob).1 (by decide),
   (lookupSet_error_cases demoSet demoBob2 demoBob).2.1 (by decide) (by decide),
   (lookupSet_error_cases demoSet demoNoNick demoBob).2.2.1 (by decide),
   (lookupSet_error_cases demoSet demoBob2 demoBob).2.2.2 (by decide) (by decide) (by decide)⟩

/-- C3: in the Authorization phase a PASS whose password matches advances
the phase to Registration and sends nothing; a PASS whose password does
not match sends ERR_PASSWDMISMATCH (464) and then disconnects (Quit),
leaving the client Terminated, not Registration. -/
theorem pass_auth_matching_or_quit (pw given : String) (c : Client)
    (hphase : c.phase = .Authorization) :
    (passMatches pw given →
      passCommandRun pw c given = ({ c with phase := .Registration }, [])) ∧
    (¬ passMatches pw given →
      (passCommandRun pw c given).2 = [.errPasswdMismatch, .quit "bad password"] ∧
      (passCommandRun pw c given).1.phase = .Terminated ∧
      (passCommandRun pw c given).1.phase ≠ .Registration) := by
  constructor
  · intro h
    simp [passCommandRun, passHandleAuthServer, h]
  · intro h
    simp [passCommandRun, passHandleAuthServer, clientQuit, h]

/-- C3 witness: a concrete Authorization-phase client with server password
`secret`: the matching PASS registers silently, the wrong PASS gets 464
and a quit. -/
theorem pass_auth_matching_or_quit_witness :
    passCommandRun "secret" demoAuthClient "secret" =
      ({ demoAuthClient with phase := .Registration }, []) ∧
    (passCommandRun "secret" demoAuthClient "wrong").2 =
      [.errPasswdMismatch, .quit "bad password"] ∧
    (passCommandRun "secret" demoAuthClient "wrong").1.phase = .Terminated :=
  ⟨(pass_auth_matching_or_quit "secret" "secret" demoAuthClient rfl).1 (by decide),
   ((pass_auth_matching_or_quit "secret" "wrong" demoAuthClient rfl).2 (by decide)).1,
   ((pass_auth_matching_or_quit "secret" "wrong" demoAuthClient rfl).2 (by decide)).2.1⟩

/-- C7: the Normal-phase dispatch prelude of `processCommand` updates only
the last-touched timestamp for PING and PONG, updates neither timestamp
for QUIT, and updates both timestamps for every other recognized command
before its handler runs. -/
theorem dispatch_prelude_timestamps (now : Nat) (c : Client) (tag : CmdTag) :
    ((tag = .ping ∨ tag = .pong) →
      (processNormalPrelude now c tag).lastTouched = now ∧
      (processNormalPrelude now c tag).lastActive = c.lastActive) ∧
    (tag = .quitCmd → processNormalPrelude now c tag = c) ∧
    (isServerCommand tag → tag ≠ .ping → tag ≠ .pong → tag ≠ .quitCmd →
      (processNormalPrelude now c tag).lastActive = now ∧
      (processNormalPrelude now c tag).lastTouched = now) := by
  refine ⟨?_, ?_, ?_⟩
  · rintro (rfl | rfl) <;> simp [processNormalPrelude, isServerCommand, clientTouch]
  · rintro rfl
    simp [processNormalPrelude, isServerCommand]
  · intro hs h1 h2 h3
    cases tag <;>
      simp_all [processNormalPrelude, isServerCommand, clientTouch, clientActive]

/-- C7 witness: the prelude evaluated on a concrete client at time 5 for a
PING, a QUIT and a NICK command. -/
theorem dispatch_prelude_timestamps_witness :
    ((processNormalPrelude 5 demoKai .ping).lastTouched = 5 ∧
      (processNormalPrelude 5 demoKai .ping).lastActive = demoKai.lastActive) ∧
    processNormalPrelude 5 demoKai .quitCmd = demoKai ∧
    ((processNormalPrelude 5 demoKai .nickCmd).lastActive = 5 ∧
      (processNormalPrelude 5 demoKai .nickCmd).lastTouched = 5) :=
  ⟨(dispatch_prelude_timestamps 5 demoKai .ping).1 (Or.inl rfl),
   (dispatch_prelude_timestamps 5 demoKai .quitCmd).2.1 rfl,
   (dispatch_prelude_timestamps 5 demoKai .nickCmd).2.2
     (by decide) (by decide) (by decide) (by decide)⟩

/-- C9: the JOIN zero form parts the client from every channel it is a
member of, with the client's own nick as the part message, creating no
channel and sending no error numeric. -/
theorem join_zero_parts_all (cs : List Channel) (c : Client)
    (chans : List (String × String)) :
    joinHandleServer cs c true chans =
      c.channels.map (fun ch => Effect.part ch (clientNick c)) ∧
    (∀ n, Effect.newChannel n ∉ joinHandleServer cs c true chans) ∧
    (∀ n, Effect.errNoSuchChannel n ∉ joinHandleServer cs c true chans) := by
  refine ⟨rfl, ?_, ?_⟩
  · intro n
    simp [joinHandleServer]
  · intro n
    simp [joinHandleServer]

/-- C1 (code bug): with a non-empty channel table, a NAMES command without
channel arguments from a member of #test produces no reply at all — the
handler's emptiness test is inverted, so the member's channels are never
enumerated. -/
theorem names_no_args_sends_nothing :
    demoEve.channels = [demoChanTest.name] ∧
    namesHandleServer [demoChanTest] demoEve [] = [] := by
  constructor
  · rfl
  · decide

/-- C6 counterexample: a NICK command that differs from the current nick
only in case (`Alice` → `alice`) is the same nickname case-insensitively,
yet the handler is not a no-op: it invokes ChangeNickname, which changes
the nick and broadcasts a NICK message. -/
theorem nick_case_change_counterexample :
    strToLower "alice" = strToLower demoAlice.nick ∧
    nickHandleServer demoAliceSet demoAlice "alice" =
      [Effect.changeNickname "alice"] ∧
    nickHandleServer demoAliceSet demoAlice "alice" ≠ [] := by
  refine ⟨by decide, by decide, by decide⟩

/-- C6 corrected: only a NICK argument that is exactly (byte-for-byte) the
current nickname is a no-op; an argument equal only up to case is treated
as an ordinary nick change — no error, ChangeNickname runs (and per the
spec it broadcasts). -/
theorem nick_same_exact_noop (clients : ClientLookupSet) (c : Client)
    (nickname : String) (hne : nickname ≠ "") (hvalid : isNickname nickname) :
    (nickname = c.nick → nickHandleServer clients c nickname = []) ∧
    (nickname ≠ c.nick → lookupGet clients nickname = some c →
      nickHandleServer clients c nickname = [.changeNickname nickname]) := by
  constructor
  · intro h
    subst h
    simp [nickHandleServer, hne, hvalid]
  · intro h hget
    simp [nickHandleServer, hne, hvalid, h, hget]

/-- C6 witness: `NICK Alice` from Alice is silent, while `NICK alice`
(case change only) performs a nick change. -/
theorem nick_same_exact_noop_witness :
    nickHandleServer demoAliceSet demoAlice "Alice" = [] ∧
    nickHandleServer demoAliceSet demoAlice "alice" =
      [.changeNickname "alice"] :=
  ⟨(nick_same_exact_noop demoAliceSet demoAlice "Alice"
      (by decide) (by decide)).1 rfl,
   (nick_same_exact_noop demoAliceSet demoAlice "alice"
      (by decide) (by decide)).2 (by decide) (by decide)⟩

theorem not_mem_erase_self_of_nodup {α : Type} [DecidableEq α] (a : α) (l : List α)
    (h : l.Nodup) : a ∉ l.erase a := by
  intro hmem
  have h1 := List.nodup_iff_count_le_one.mp h a
  have h2 : 0 < (l.erase a).count a := List.count_pos_iff.mpr hmem
  rw [List.count_erase_self] at h2
  omega

/-- C2 counterexample: MODE `+i-i` on self with Invisible initially absent
broadcasts a mode reply carrying both `+i` and `-i` — not the empty net
change the claim requires. -/
theorem mode_toggle_counterexample :
    UserMode.Invisible ∉ demoMia.flags ∧
    (modeHandleServer demoMiaSet demoMia "mia" [plusI, minusI]).2 =
      [Effect.rplMode [plusI, minusI]] ∧
    (modeHandleServer demoMiaSet demoMia "mia" [plusI, minusI]).2 ≠ [] := by
  refine ⟨by decide, by decide, by decide⟩

/-- C2 corrected: the handler applies the changes left to right and echoes
each applied change (never the net change).  For `+i-i`: with Invisible
initially absent the flag set is restored but the reply carries `+i,-i`;
with Invisible initially present the `+i` is skipped and `-i` removes the
flag, the reply carrying `-i` only.  Symmetrically for `-i+i`: initially
absent adds Invisible (reply `+i`); initially present restores the flag
set as a set, the reply carrying `-i,+i`. -/
theorem mode_toggle_invisible (s : ClientLookupSet) (c : Client)
    (hget : lookupGet s c.nick = some c) (hnd : c.flags.Nodup) :
    (UserMode.Invisible ∉ c.flags →
      modeHandleServer s c c.nick [plusI, minusI] =
        (c, [.rplMode [plusI, minusI]]) ∧
      modeHandleServer s c c.nick [minusI, plusI] =
        ({ c with flags := .Invisible :: c.flags }, [.rplMode [plusI]])) ∧
    (UserMode.Invisible ∈ c.flags →
      modeHandleServer s c c.nick [plusI, minusI] =
        ({ c with flags := c.flags.erase .Invisible }, [.rplMode [minusI]]) ∧
      (modeHandleServer s c c.nick [minusI, plusI]).2 =
        [.rplMode [minusI, plusI]] ∧
      (∀ m, m ∈ (modeHandleServer s c c.nick [minusI, plusI]).1.flags ↔ m ∈ c.flags)) := by
  have hni : UserMode.Invisible ∉ c.flags.erase .Invisible :=
    not_mem_erase_self_of_nodup _ _ hnd
  constructor
  · intro h
    constructor
    · simp [modeHandleServer, hget, modeLoop, modeLoopStep, plusI, minusI, h,
        List.erase_cons_head]
    · simp [modeHandleServer, hget, modeLoop, modeLoopStep, plusI, minusI, h]
  · intro h
    refine ⟨?_, ?_, ?_⟩
    · simp [modeHandleServer, hget, modeLoop, modeLoopStep, plusI, minusI, h]
    · simp [modeHandleServer, hget, modeLoop, modeLoopStep, plusI, minusI, h, hni]
    · have hflags : (modeHandleServer s c c.nick [minusI, plusI]).1.flags =
          .Invisible :: c.flags.erase .Invisible := by
        simp [modeHandleServer, hget, modeLoop, modeLoopStep, plusI, minusI, h, hni]
      intro m
      rw [hflags]
      by_cases hm : m = UserMode.Invisible
      · subst hm
        simp [h]
      · simp [hm, List.mem_erase_of_ne hm]

/-- C2 witness: on the concrete client `demoMia` with no flags set, MODE
`+i-i` restores the empty flag set and replies with both changes, and
MODE `-i+i` leaves Invisible set and replies with `+i`. -/
theorem mode_toggle_invisible_witness :
    modeHandleServer demoMiaSet demoMia demoMia.nick [plusI, minusI] =
      (demoMia, [.rplMode [plusI, minusI]]) ∧
    modeHandleServer demoMiaSet demoMia demoMia.nick [minusI, plusI] =
      ({ demoMia with flags := [.Invisible] }, [.rplMode [plusI]]) :=
  ((mode_toggle_invisible demoMiaSet demoMia (by decide) (by decide)).1 (by decide))

theorem modeLoopStep_no_oper (p : List UserMode × List ModeChange) (ch : ModeChange)
    (m : UserMode) (hm : m = .Operator ∨ m = .LocalOperator) (hmem : m ∉ p.1) :
    m ∉ (modeLoopStep p ch).1 := by
  have herase : ∀ a : UserMode, m ∉ p.1.erase a :=
    fun a hx => hmem (List.mem_of_mem_erase hx)
  have hne : ∀ x : UserMode,
      x = .Invisible ∨ x = .ServerNotice ∨ x = .WallOps → ¬ m = x := by
    rintro x (rfl | rfl | rfl) <;> rcases hm with rfl | rfl <;> simp
  obtain ⟨op, mode⟩ := ch
  cases mode <;> cases op <;>
    simp only [modeLoopStep] <;>
    (try split) <;>
    simp_all [List.mem_cons]

theorem modeLoopStep_changes_safe (p : List UserMode × List ModeChange)
    (ch : ModeChange) (hacc : ∀ c2 ∈ p.2, appendedSafe c2) :
    ∀ c2 ∈ (modeLoopStep p ch).2, appendedSafe c2 := by
  obtain ⟨op, mode⟩ := ch
  cases mode <;> cases op <;>
    simp only [modeLoopStep] <;>
    (try split) <;>
    intro c2 hc2 <;>
    first
      | exact hacc c2 hc2
      | (rcases List.mem_append.mp hc2 with h2 | h2
         · exact hacc c2 h2
         · simp only [List.mem_singleton] at h2
           subst h2
           simp [appendedSafe])

theorem modeLoop_foldl_no_oper (cs : List ModeChange)
    (p : List UserMode × List ModeChange) (m : UserMode)
    (hm : m = .Operator ∨ m = .LocalOperator) (hmem : m ∉ p.1) :
    m ∉ (cs.foldl modeLoopStep p).1 := by
  induction cs generalizing p with
  | nil => exact hmem
  | cons ch cs ih =>
    simp only [List.foldl_cons]
    exact ih (modeLoopStep p ch) (modeLoopStep_no_oper p ch m hm hmem)

theorem modeLoop_foldl_changes_safe (cs : List ModeChange)
    (p : List UserMode × List ModeChange)
    (hacc : ∀ c2 ∈ p.2, appendedSafe c2) :
    ∀ c2 ∈ (cs.foldl modeLoopStep p).2, appendedSafe c2 := by
  induction cs generalizing p with
  | nil => exact hacc
  | cons ch cs ih =>
    simp only [List.foldl_cons]
    exact ih (modeLoopStep p ch) (modeLoopStep_changes_safe p ch hacc)

/-- C8: the user MODE change loop never sets Operator or LocalOperator —
an Add of those modes is neither applied nor echoed in the reply, whatever
the change list — while a Remove of them is applied; the OPER handler is
what grants the Operator flag. -/
theorem mode_never_grants_oper (f : List UserMode) (cs : List ModeChange) (c : Client) :
    (UserMode.Operator ∉ f → UserMode.Operator ∉ (modeLoop f cs).1) ∧
    (UserMode.LocalOperator ∉ f → UserMode.LocalOperator ∉ (modeLoop f cs).1) ∧
    (∀ ch ∈ (modeLoop f cs).2,
      ¬(ch.op = .Add ∧ (ch.mode = .Operator ∨ ch.mode = .LocalOperator))) ∧
    (f.Nodup → UserMode.Operator ∉ (modeLoop f [⟨.Remove, .Operator⟩]).1 ∧
      UserMode.LocalOperator ∉ (modeLoop f [⟨.Remove, .LocalOperator⟩]).1) ∧
    UserMode.Operator ∈ (operHandleServer c true false).1.flags := by
  refine ⟨?_, ?_, ?_, ?_, ?_⟩
  · intro h
    exact modeLoop_foldl_no_oper cs (f, []) _ (Or.inl rfl) h
  · intro h
    exact modeLoop_foldl_no_oper cs (f, []) _ (Or.inr rfl) h
  · intro ch hch
    have hs := modeLoop_foldl_changes_safe cs (f, []) (by simp) ch hch
    rintro ⟨ha, hb⟩
    rcases hs with h2 | h2 | h2 | h2
    · rw [ha] at h2; cases h2
    · rcases hb with hb | hb <;> rw [hb] at h2 <;> cases h2
    · rcases hb with hb | hb <;> rw [hb] at h2 <;> cases h2
    · rcases hb with hb | hb <;> rw [hb] at h2 <;> cases h2
  · intro hnd
    constructor
    · by_cases hf : UserMode.Operator ∈ f
      · simpa [modeLoop, modeLoopStep, hf] using
          not_mem_erase_self_of_nodup UserMode.Operator f hnd
      · simp [modeLoop, modeLoopStep, hf]
    · by_cases hf : UserMode.LocalOperator ∈ f
      · simpa [modeLoop, modeLoopStep, hf] using
          not_mem_erase_self_of_nodup UserMode.LocalOperator f hnd
      · simp [modeLoop, modeLoopStep, hf]
  · by_cases h : UserMode.Operator ∈ c.flags <;> simp [operHandleServer, h]

/-- C8 witness: concrete runs — `+o` on an empty flag set stays empty,
`-o` on an operator strips the flag, and a successful OPER sets it. -/
theorem mode_never_grants_oper_witness :
    UserMode.Operator ∉ (modeLoop [] [⟨.Add, .Operator⟩]).1 ∧
    UserMode.Operator ∉ (modeLoop [UserMode.Operator] [⟨.Remove, .Operator⟩]).1 ∧
    UserMode.Operator ∈ (operHandleServer demoKai true false).1.flags :=
  ⟨(mode_never_grants_oper [] [⟨.Add, .Operator⟩] demoKai).1 (by decide),
   ((mode_never_grants_oper [UserMode.Operator] [⟨.Remove, .Operator⟩] demoKai).2.2.2.1
      (by decide)).1,
   (mode_never_grants_oper [] [] demoKai).2.2.2.2⟩

theorem getLast?_append_singleton {α : Type} (l : List α) (a : α) :
    (l ++ [a]).getLast? = some a := by
  induction l with
  | nil => rfl
  | cons x xs ih =>
    rw [List.cons_append, List.getLast?_cons, ih]
    rfl

theorem listHandler_filterMap_eq (cs : List Channel) (c : Client)
    (hop : UserMode.Operator ∉ c.flags) :
    cs.filterMap (fun ch =>
        if UserMode.Operator ∉ c.flags ∧ ChannelMode.Private ∈ ch.flags then none
        else some (Effect.rplList ch.name)) =
      (cs.filter (fun ch => ChannelMode.Private ∉ ch.flags)).map
        (fun ch => Effect.rplList ch.name) := by
  induction cs with
  | nil => rfl
  | cons ch cs ih =>
    rw [List.filterMap_cons, List.filter_cons, ih]
    by_cases h : ChannelMode.Private ∈ ch.flags
    · simp [h, hop]
    · simp [h, hop]

/-- C10: for a client without the Operator flag, LIST with no arguments
omits Private channels from the RPL_LIST replies, and LIST of an existing
Private channel answers ERR_NOSUCHCHANNEL instead of RPL_LIST; every
listing (with an empty target) ends with RPL_LISTEND; a client with the
Operator flag receives RPL_LIST for a Private channel. -/
theorem list_hides_private (cs : List Channel) (c : Client)
    (msgChannels : List String) (name : String) (ch : Channel) :
    (UserMode.Operator ∉ c.flags →
      listHandleServer cs c "" [] =
        (cs.filter (fun ch2 => ChannelMode.Private ∉ ch2.flags)).map
          (fun ch2 => Effect.rplList ch2.name) ++ [.rplListEnd]) ∧
    (UserMode.Operator ∉ c.flags → ChannelMode.Private ∈ ch.flags →
      channelsGet cs name = some ch →
      listHandleServer cs c "" [name] = [.errNoSuchChannel name, .rplListEnd]) ∧
    (listHandleServer cs c "" msgChannels).getLast? = some .rplListEnd ∧
    (UserMode.Operator ∈ c.flags → channelsGet cs name = some ch →
      listHandleServer cs c "" [name] = [.rplList ch.name, .rplListEnd]) := by
  refine ⟨?_, ?_, ?_, ?_⟩
  · intro hop
    simp only [listHandleServer]
    rw [listHandler_filterMap_eq cs c hop]
    simp
  · intro hop hpriv hget
    simp [listHandleServer, hget, hop, hpriv]
  · simp only [listHandleServer]
    rw [if_neg (by simp)]
    exact getLast?_append_singleton _ _
  · intro hop hget
    simp [listHandleServer, hget, hop]

/-- C10 witness: a public and a private channel listed by a plain client
and by an operator. -/
theorem list_hides_private_witness :
    listHandleServer [demoChanPub, demoChanPriv] demoKai "" [] =
      [.rplList "#pub", .rplListEnd] ∧
    listHandleServer [demoChanPub, demoChanPriv] demoKai "" ["#priv"] =
      [.errNoSuchChannel "#priv", .rplListEnd] ∧
    listHandleServer [demoChanPub, demoChanPriv] demoOper "" ["#priv"] =
      [.rplList "#priv", .rplListEnd] := by
  refine ⟨?_, ?_, ?_⟩
  · have h := (list_hides_private [demoChanPub, demoChanPriv] demoKai [] "" demoChanPub).1
      (by decide)
    rw [h]
    decide
  · exact (list_hides_private [demoChanPub, demoChanPriv] demoKai [] "#priv" demoChanPriv).2.1
      (by decide) (by decide) (by decide)
  · exact (list_hides_private [demoChanPub, demoChanPriv] demoOper [] "#priv" demoChanPriv).2.2.2
      (by decide) (by decide)

end Ergo
